import Mathlib

/-!
Verification of the tic-tac-toe room coordinator.

The development shallowly embeds the two backend components:
* the game rules engine (`checkWinner`, `checkDraw`, `validateMove`,
  `applyMove`, `getOppositeRole`) from `backend/game-engine.js`, and
* the room manager (`createRoom`, `joinRoom`, `getPlayerRole`,
  `applyMoveToRoom`, `registerReplayVote`, `resetRoom`, `removePlayer`)
  operating on an in-memory store of rooms.

JS values are modelled as follows: a board cell `null | "X" | "O"` becomes
`Option Player`; the board array becomes a `List Cell` (indexing `board[i]`
becomes `List.getD`, assignment becomes `List.set`); the `Map` of rooms
becomes a function `String → Option Room`; the JS `Set` of replay votes
becomes a `List String` to which elements are appended only when absent;
`bcrypt` hashing is abstracted by a parameter `hashFn : String → String`
(`bcrypt.compare(k, h)` becomes `hashFn k = h`); `Math.random`-driven
identifier generation is abstracted by a parameter supplying the generated
identifier.  Fallible operations return a result value paired with the
(possibly updated) store.
-/

namespace TicTacToe

/-- A player role: the JS strings `"X"` and `"O"`. -/
inductive Player where
  | X : Player
  | O : Player
deriving DecidableEq, Repr

/-- A board cell: JS `null | "X" | "O"`. -/
abbrev Cell := Option Player

/-- A board: JS array of 9 cells. -/
abbrev Board := List Cell

/-- Room status: the JS strings `'waiting' | 'playing' | 'ended'`. -/
inductive Status where
  | waiting : Status
  | playing : Status
  | ended : Status
deriving DecidableEq, Repr

/-- The error codes of the system (`ERROR_CODES` in the constants file). -/
inductive ErrorCode where
  | ROOM_NOT_FOUND
  | WRONG_PASSKEY
  | ROOM_FULL
  | NOT_YOUR_TURN
  | CELL_TAKEN
  | GAME_NOT_STARTED
  | INVALID_PASSKEY
  | INVALID_ROOM_ID
  | INVALID_CELL
  | INTERNAL_ERROR
  | NOT_IN_ROOM
  | GAME_NOT_ENDED
  | ALREADY_VOTED
deriving DecidableEq, Repr

/-- A member entry of a room: `{ socketId, role }`. -/
structure Member where
  socketId : String
  role : Player
deriving DecidableEq, Repr

/-- A room, with the fields of the JS room object.  `replayVotes` is the JS
`Set` modelled as a duplicate-free list in insertion order. -/
structure Room where
  roomId : String
  passKeyHash : String
  players : List Member
  board : Board
  turn : Player
  status : Status
  replayVotes : List String
  startingTurn : Player
deriving DecidableEq, Repr

/-- The in-memory room store: the JS `Map` from room id to room. -/
def Store := String → Option Room

/-- JS `rooms.set(roomId, room)`. -/
def Store.set (s : Store) (roomId : String) (room : Room) : Store :=
  fun x => if x = roomId then some room else s x

/-- JS `rooms.delete(roomId)`. -/
def Store.del (s : Store) (roomId : String) : Store :=
  fun x => if x = roomId then none else s x

/-- The empty store. -/
def Store.empty : Store := fun _ => none

/-! ## Game rules engine (`backend/game-engine.js`) -/

/-- Source constant `WINNING_LINES`: the 8 winning triples, rows then columns then
diagonals. -/
def WINNING_LINES : List (Nat × Nat × Nat) :=
  [(0, 1, 2), (3, 4, 5), (6, 7, 8),
   (0, 3, 6), (1, 4, 7), (2, 5, 8),
   (0, 4, 8), (2, 4, 6)]

/-- The loop-body test of `checkWinner` for one line `[a, b, c]`:
`board[a] && board[a] === board[b] && board[a] === board[c]`. -/
def winLine (board : Board) : Nat × Nat × Nat → Bool :=
  fun l => (board.getD l.1 none).isSome &&
    (board.getD l.1 none == board.getD l.2.1 none) &&
    (board.getD l.1 none == board.getD l.2.2 none)

/-- Function `checkWinner` generalised over the list of lines scanned: returns
`board[a]` of the first line whose three cells hold the same non-empty
value, else `none`. -/
def checkWinnerOn (lines : List (Nat × Nat × Nat)) (board : Board) :
    Option Player :=
  match lines.find? (winLine board) with
  | some l => board.getD l.1 none
  | none => none

/-- Source function `checkWinner(board)`: scans `WINNING_LINES` in order. -/
def checkWinner (board : Board) : Option Player :=
  checkWinnerOn WINNING_LINES board

/-- Source function `checkDraw(board)`: `board.every(cell => cell !== null)`. -/
def checkDraw (board : Board) : Bool :=
  board.all (fun cell => cell ≠ none)

/-- Source function `getOppositeRole(role)`. -/
def getOppositeRole (role : Player) : Player :=
  match role with
  | .X => .O
  | .O => .X

/-- Source function `validateMove(room, playerRole, index)`: `none` means valid, `some e`
is the error code of the failed check.  The index is an `Int` because the
JS code tests `index < 0`.  The cell test `room.board[index] !== null`
holds unless the access yields exactly `null`: an in-range EMPTY cell is
`some none` under the `Option`-of-`Option` of `List.getElem?`, and an
out-of-range access (JS `undefined`) also counts as taken. -/
def validateMove (room : Room) (playerRole : Player) (index : Int) :
    Option ErrorCode :=
  if room.status ≠ Status.playing then some .GAME_NOT_STARTED
  else if room.turn ≠ playerRole then some .NOT_YOUR_TURN
  else if index < 0 ∨ index > 8 then some .INVALID_CELL
  else if room.board[index.toNat]? ≠ some none then some .CELL_TAKEN
  else none

/-- The outcome `applyMove` reports: `{ winner: "X" | "O" | "draw" }`,
with JS `null` as the surrounding `Option`. -/
inductive Outcome where
  | winner (p : Player)
  | draw
deriving DecidableEq, Repr

/-- Source function `applyMove(room, index)`: writes `room.turn` into `board[index]`, then
ends the game on a winner or a draw, otherwise flips the turn.  Returns the
mutated room together with the reported outcome. -/
def applyMove (room : Room) (index : Int) : Room × Option Outcome :=
  let board := room.board.set index.toNat (some room.turn)
  match checkWinner board with
  | some w => ({ room with board := board, status := .ended },
               some (.winner w))
  | none =>
    if checkDraw board then
      ({ room with board := board, status := .ended }, some .draw)
    else
      ({ room with board := board,
                   turn := if room.turn = Player.X then .O else .X }, none)

/-! ## Room manager (room CRUD and the in-memory store) -/

/-- The character set of `generateRoomId`. -/
def ROOM_ID_CHARS : List Char :=
  "ABCDEFGHIJKLMNOPQRSTUVWXYZ0123456789".toList

/-- Source function `generateRoomId()` with the six `Math.random` draws abstracted into a
function picking a character index per position. -/
def generateRoomId (pick : Fin 6 → Fin 36) : String :=
  String.mk ((List.finRange 6).map (fun i => ROOM_ID_CHARS.getD (pick i) 'A'))

/-- The runtime faults the coordinator can raise (surfaced to the socket
handler as a rejected promise). -/
inductive JsError where
  | typeError (msg : String)
deriving DecidableEq, Repr

/-- Source function `createRoom(passKey, socketId)` with the generated identifier passed in
and hashing abstracted by `hashFn`.  The identifier is bound by `const
roomId = generateRoomId()`; the collision loop `while (rooms.has(roomId))
roomId = generateRoomId()` reassigns that `const` binding, so on a
collision the first loop iteration throws a `TypeError` instead of
regenerating.  Without a collision the room is inserted and the identifier
returned. -/
def createRoom (hashFn : String → String) (genId : String)
    (passKey socketId : String) (s : Store) :
    Except JsError (String × Store) :=
  if (s genId).isSome then
    .error (.typeError "Assignment to constant variable.")
  else
    let room : Room :=
      { roomId := genId
        passKeyHash := hashFn passKey
        players := [{ socketId := socketId, role := .X }]
        board := List.replicate 9 none
        turn := .X
        status := .waiting
        replayVotes := []
        startingTurn := .X }
    .ok (genId, s.set genId room)

/-- The result of `joinRoom`: `{ success, role?, alreadyJoined?, error? }`. -/
inductive JoinResult where
  | ok (role : Player) (alreadyJoined : Bool)
  | err (code : ErrorCode)
deriving DecidableEq, Repr

/-- Source function `joinRoom(roomId, passKey, socketId)`: room lookup, pass-key check,
fullness check, reconnection check, then role assignment and possible
WAITING→PLAYING transition, in the source's order. -/
def joinRoom (hashFn : String → String) (roomId passKey socketId : String)
    (s : Store) : JoinResult × Store :=
  match s roomId with
  | none => (.err .ROOM_NOT_FOUND, s)
  | some room =>
    if hashFn passKey ≠ room.passKeyHash then (.err .WRONG_PASSKEY, s)
    else if room.players.length ≥ 2 then (.err .ROOM_FULL, s)
    else
      match room.players.find? (fun p => p.socketId = socketId) with
      | some p => (.ok p.role true, s)
      | none =>
        let role : Player := if room.players.length = 0 then .X else .O
        let players := room.players ++ [{ socketId := socketId, role := role }]
        let room' : Room :=
          { room with
            players := players
            status := if players.length = 2 then .playing else room.status }
        (.ok role false, s.set roomId room')

/-- Source function `getRoom(roomId)`. -/
def getRoom (roomId : String) (s : Store) : Option Room :=
  s roomId

/-- Source function `getPlayerRole(roomId, socketId)`. -/
def getPlayerRole (roomId socketId : String) (s : Store) : Option Player :=
  match s roomId with
  | none => none
  | some room =>
    match room.players.find? (fun p => p.socketId = socketId) with
    | some p => some p.role
    | none => none

/-- The result of `applyMoveToRoom`: on success the handler reads
`room.board`, `room.turn` and `winner` from it. -/
inductive MoveResult where
  | ok (board : Board) (turn : Player) (outcome : Option Outcome)
  | err (code : ErrorCode)
deriving DecidableEq, Repr

/-- Source function `applyMoveToRoom(roomId, socketId, index)`: lookup, role resolution,
`validateMove`, then `applyMove` on success. -/
def applyMoveToRoom (roomId socketId : String) (index : Int) (s : Store) :
    MoveResult × Store :=
  match s roomId with
  | none => (.err .ROOM_NOT_FOUND, s)
  | some room =>
    match getPlayerRole roomId socketId s with
    | none => (.err .NOT_IN_ROOM, s)
    | some playerRole =>
      match validateMove room playerRole index with
      | some e => (.err e, s)
      | none =>
        let (room', outcome) := applyMove room index
        (.ok room'.board room'.turn outcome, s.set roomId room')

/-- The result of `registerReplayVote`: `{ success, votes?, error? }`. -/
inductive VoteResult where
  | ok (votes : Nat)
  | err (code : ErrorCode)
deriving DecidableEq, Repr

/-- Source function `registerReplayVote(roomId, socketId)`: requires the room to exist and
the game to have ended, rejects a repeat vote, otherwise adds the voter to
the set and returns the new size. -/
def registerReplayVote (roomId socketId : String) (s : Store) :
    VoteResult × Store :=
  match s roomId with
  | none => (.err .ROOM_NOT_FOUND, s)
  | some room =>
    if room.status ≠ Status.ended then (.err .GAME_NOT_ENDED, s)
    else if room.replayVotes.contains socketId then (.err .ALREADY_VOTED, s)
    else
      let room' := { room with replayVotes := room.replayVotes ++ [socketId] }
      (.ok room'.replayVotes.length, s.set roomId room')

/-- Source function `resetRoom(roomId)`: clears the board, swaps the starting turn, sets the
turn to it, clears the votes and sets the status to playing. -/
def resetRoom (roomId : String) (s : Store) : Option Room × Store :=
  match s roomId with
  | none => (none, s)
  | some room =>
    let room' : Room :=
      { room with
        board := List.replicate 9 none
        startingTurn := if room.startingTurn = Player.X then .O else .X
        turn := if room.startingTurn = Player.X then .O else .X
        replayVotes := []
        status := .playing }
    (some room', s.set roomId room')

/-- The result of `removePlayer`:
`{ roomExists, hadPlayers, remainingPlayers }`. -/
structure RemoveResult where
  roomExists : Bool
  hadPlayers : Bool
  remainingPlayers : Nat
deriving DecidableEq, Repr

/-- Source function `removePlayer(roomId, socketId)`: removes the first member with the
given socket id (`findIndex` + `splice`); deletes the room if it becomes
empty, otherwise forces waiting with a cleared board, turn X and cleared
votes. -/
def removePlayer (roomId socketId : String) (s : Store) :
    RemoveResult × Store :=
  match s roomId with
  | none => (⟨false, false, 0⟩, s)
  | some room =>
    if room.players.all (fun p => p.socketId ≠ socketId) then
      (⟨true, false, room.players.length⟩, s)
    else
      let players := room.players.eraseP (fun p => p.socketId = socketId)
      if players.length = 0 then
        (⟨false, true, 0⟩, s.del roomId)
      else
        let room' : Room :=
          { room with
            players := players
            status := .waiting
            board := List.replicate 9 none
            turn := .X
            replayVotes := [] }
        (⟨true, true, players.length⟩, s.set roomId room')

/-- Functions `findPlayerRooms` and `getOpponentSocketId` close the coordinator
surface; `getOpponentSocketId(roomId, socketId)` returns the other
member's socket id. -/
def getOpponentSocketId (roomId socketId : String) (s : Store) :
    Option String :=
  match s roomId with
  | none => none
  | some room =>
    match room.players.find? (fun p => p.socketId ≠ socketId) with
    | some p => some p.socketId
    | none => none

/-! ## Claim C1: `isDraw` versus fullness and the winner -/

/-- A full board on which X has nevertheless won the first row:
`[X, X, X, O, O, X, O, X, O]`. -/
def fullWonBoard : Board :=
  [some .X, some .X, some .X, some .O, some .O, some .X,
   some .O, some .X, some .O]

/-- C1 (counterexample): the claim "`isDraw(board)` returns true if and
only if no cell of the board is EMPTY and `winner(board)` is none" fails
at `fullWonBoard`: `checkDraw` returns `true` there although `checkWinner`
returns X, because `checkDraw` tests only fullness. -/
theorem checkDraw_iff_fails_on_fullWonBoard :
    ¬ (checkDraw fullWonBoard = true ↔
        ((∀ c ∈ fullWonBoard, c ≠ none) ∧
          checkWinner fullWonBoard = none)) := by
  decide

/-- C1 (amended): `isDraw(board)` returns true if and only if no cell of
the board is EMPTY; the winner is not consulted. -/
theorem checkDraw_iff_no_empty_cell (board : Board) :
    checkDraw board = true ↔ ∀ c ∈ board, c ≠ none := by
  simp [checkDraw]

/-! ## Claim C10: `checkWinner` is sound and never reports an empty cell -/

/-- C10: `winner(board)` never returns EMPTY: whenever it returns a role,
some winning line has all three cells equal to that (non-EMPTY) role;
whenever every winning line contains an EMPTY cell it returns none, and in
particular it returns none on the all-EMPTY board. -/
theorem checkWinner_sound (board : Board) :
    (∀ p : Player, checkWinner board = some p →
      ∃ l ∈ WINNING_LINES,
        board.getD l.1 none = some p ∧
        board.getD l.2.1 none = some p ∧
        board.getD l.2.2 none = some p) ∧
    ((∀ l ∈ WINNING_LINES,
        board.getD l.1 none = none ∨
        board.getD l.2.1 none = none ∨
        board.getD l.2.2 none = none) →
      checkWinner board = none) ∧
    checkWinner (List.replicate 9 none) = none := by
  refine ⟨?_, ?_, by decide⟩
  · intro p hp
    unfold checkWinner checkWinnerOn at hp
    cases hfind : WINNING_LINES.find? (winLine board) with
    | none => rw [hfind] at hp; exact absurd hp (by simp)
    | some l =>
      rw [hfind] at hp
      dsimp only at hp
      have hmem := List.mem_of_find?_eq_some hfind
      have hwin := List.find?_some hfind
      simp only [winLine, Bool.and_eq_true, beq_iff_eq,
        Option.isSome_iff_exists] at hwin
      refine ⟨l, hmem, hp, ?_, ?_⟩
      · rw [← hwin.1.2, hp]
      · rw [← hwin.2, hp]
  · intro hall
    unfold checkWinner checkWinnerOn
    have : WINNING_LINES.find? (winLine board) = none := by
      rw [List.find?_eq_none]
      intro l hl hwl
      simp only [winLine, Bool.and_eq_true, beq_iff_eq,
        Option.isSome_iff_exists] at hwl
      rcases hall l hl with h | h | h
      · rcases hwl.1.1 with ⟨q, hq⟩; rw [h] at hq; cases hq
      · rcases hwl.1.1 with ⟨q, hq⟩
        rw [hwl.1.2, h] at hq; cases hq
      · rcases hwl.1.1 with ⟨q, hq⟩
        rw [hwl.2, h] at hq; cases hq
    rw [this]

/-- C10 (witness): on the board where X holds the top row the soundness
direction produces a concrete winning line, and on the all-EMPTY board the
every-line-has-an-empty-cell direction yields no winner. -/
theorem checkWinner_sound_witness :
    (∃ l ∈ WINNING_LINES,
        fullWonBoard.getD l.1 none = some Player.X ∧
        fullWonBoard.getD l.2.1 none = some Player.X ∧
        fullWonBoard.getD l.2.2 none = some Player.X) ∧
    checkWinner (List.replicate 9 (none : Cell)) = none :=
  ⟨(checkWinner_sound fullWonBoard).1 Player.X (by decide),
   (checkWinner_sound (List.replicate 9 none)).2.1 (by decide)⟩

/-! ## Claim C9: `resetRoom` -/

/-- C9: for a present room — whatever its status and membership —
`resetRoom` clears all 9 board cells to EMPTY, flips the starting role,
sets the turn to the new starting role, empties the replay votes, sets
the status to playing and leaves every other field and every other store
entry unchanged; for an absent room id it returns none and changes
nothing. -/
theorem resetRoom_spec (roomId : String) (s : Store) :
    (∀ room, s roomId = some room →
      ∃ room', resetRoom roomId s = (some room', s.set roomId room') ∧
        room'.board.length = 9 ∧
        (∀ j, room'.board.getD j none = none) ∧
        room'.startingTurn = getOppositeRole room.startingTurn ∧
        room'.turn = room'.startingTurn ∧
        room'.replayVotes = [] ∧
        room'.status = Status.playing ∧
        room'.players = room.players ∧
        room'.passKeyHash = room.passKeyHash ∧
        room'.roomId = room.roomId ∧
        (∀ x, x ≠ roomId → (resetRoom roomId s).2 x = s x)) ∧
    (s roomId = none → resetRoom roomId s = (none, s)) := by
  constructor
  · intro room hroom
    refine ⟨{ room with
        board := List.replicate 9 none
        startingTurn := if room.startingTurn = Player.X then .O else .X
        turn := if room.startingTurn = Player.X then .O else .X
        replayVotes := []
        status := .playing },
      ?_, ?_, ?_, ?_, ?_, ?_, ?_, ?_, ?_, ?_, ?_⟩
    · unfold resetRoom; rw [hroom]
    · simp
    · intro j
      rw [List.getD_eq_getElem?_getD, List.getElem?_replicate]
      split <;> rfl
    · cases h : room.startingTurn <;> simp [getOppositeRole, h]
    · cases h : room.startingTurn <;> simp [h]
    · rfl
    · rfl
    · rfl
    · rfl
    · rfl
    · intro x hx
      unfold resetRoom
      rw [hroom]
      simp [Store.set, hx]
  · intro hnone
    unfold resetRoom; rw [hnone]

/-- A concrete room used by several witnesses: an ended two-member room
"GAMEAA" in which O has just won, with starting role X. -/
def endedRoom : Room :=
  { roomId := "GAMEAA"
    passKeyHash := "pw12"
    players := [{ socketId := "sockA", role := .X },
                { socketId := "sockB", role := .O }]
    board := [some .O, some .X, some .X, none, some .O, none,
              none, none, some .O]
    turn := .O
    status := .ended
    replayVotes := []
    startingTurn := .X }

/-- The store holding exactly `endedRoom`. -/
def endedStore : Store := Store.empty.set "GAMEAA" endedRoom

/-- C9 (witness): applying `resetRoom_spec` to the concrete store holding
`endedRoom` under id "GAMEAA", and to the empty store under an absent
id. -/
theorem resetRoom_spec_witness :
    (∃ room', resetRoom "GAMEAA" endedStore =
        (some room', endedStore.set "GAMEAA" room') ∧
      room'.board.length = 9 ∧
      (∀ j, room'.board.getD j none = none) ∧
      room'.startingTurn = getOppositeRole endedRoom.startingTurn ∧
      room'.turn = room'.startingTurn ∧
      room'.replayVotes = [] ∧
      room'.status = Status.playing ∧
      room'.players = endedRoom.players ∧
      room'.passKeyHash = endedRoom.passKeyHash ∧
      room'.roomId = endedRoom.roomId ∧
      (∀ x, x ≠ "GAMEAA" → (resetRoom "GAMEAA" endedStore).2 x = endedStore x)) ∧
    resetRoom "NOROOM" Store.empty = (none, Store.empty) :=
  ⟨(resetRoom_spec "GAMEAA" endedStore).1 endedRoom rfl,
   (resetRoom_spec "NOROOM" Store.empty).2 rfl⟩

/-! ## Claim C4: `createRoom` and identifier collisions -/

/-- A store that already holds a room under the identifier "AAAAAA". -/
def collisionStore : Store := Store.empty.set "AAAAAA" endedRoom

/-- C4: `createRoom` does not survive an identifier collision.  The JS
code binds the generated identifier with `const` and the collision loop
re-assigns that binding, which throws a `TypeError` at run time, so when
the first generated identifier is already live the call aborts instead of
regenerating.  (`generateRoomId` with every draw picking index 0 produces
"AAAAAA", which collides with `collisionStore`.)  Without a collision the
call does return the identifier and inserts a WAITING room with exactly
one member of role X. -/
theorem createRoom_collision_throws :
    generateRoomId (fun _ => ⟨0, by decide⟩) = "AAAAAA" ∧
    createRoom id (generateRoomId (fun _ => ⟨0, by decide⟩))
        "pass" "sockNew" collisionStore =
      .error (.typeError "Assignment to constant variable.") ∧
    (createRoom id "BBBBBB" "pass" "sockNew" collisionStore).toOption.map
        (fun r => ((r.2 r.1).map
          (fun room => (room.status, room.players, room.board)))) =
      some (some (Status.waiting,
        [{ socketId := "sockNew", role := Player.X }],
        List.replicate 9 (none : Cell))) := by
  refine ⟨by decide, ?_, ?_⟩ <;> rfl

/-! ## Claim C2: rejoining a room -/

/-- A full (two-member) playing room with pass-key hash "key4". -/
def fullRoom : Room :=
  { roomId := "FULLAA"
    passKeyHash := "key4"
    players := [{ socketId := "sockA", role := .X },
                { socketId := "sockB", role := .O }]
    board := List.replicate 9 none
    turn := .X
    status := .playing
    replayVotes := []
    startingTurn := .X }

/-- The store holding exactly `fullRoom`. -/
def fullStore : Store := Store.empty.set "FULLAA" fullRoom

/-- A one-member waiting room with the same pass-key hash. -/
def soloRoom : Room :=
  { roomId := "SOLOAA"
    passKeyHash := "key4"
    players := [{ socketId := "sockA", role := .X }]
    board := List.replicate 9 none
    turn := .X
    status := .waiting
    replayVotes := []
    startingTurn := .X }

/-- The store holding exactly `soloRoom`. -/
def soloStore : Store := Store.empty.set "SOLOAA" soloRoom

/-- C2 (counterexample): the claim fails on a full room.  "sockA" is a
member of `fullRoom` and presents the correct secret, yet `joinRoom`
answers `ROOM_FULL` instead of returning the member's existing role,
because the fullness check precedes the already-a-member check. -/
theorem joinRoom_full_rejoin_fails :
    fullRoom.players.find? (fun q => q.socketId = "sockA") =
      some { socketId := "sockA", role := Player.X } ∧
    id "key4" = fullRoom.passKeyHash ∧
    (joinRoom id "FULLAA" "key4" "sockA" fullStore).1 =
      .err .ROOM_FULL := by
  refine ⟨by decide, rfl, by decide⟩

/-- C2 (amended): with the correct secret, a member rejoining a room with
fewer than 2 members gets its existing role back with the store untouched;
but when membership is already 2 `joinRoom` returns `ROOM_FULL` even to an
existing member (leaving the store untouched), and `ROOM_FULL` is returned
only when membership is already 2. -/
theorem joinRoom_rejoin_spec (hashFn : String → String)
    (roomId passKey socketId : String) (s : Store) (room : Room)
    (hroom : s roomId = some room)
    (hkey : hashFn passKey = room.passKeyHash) :
    (room.players.length ≥ 2 →
      joinRoom hashFn roomId passKey socketId s = (.err .ROOM_FULL, s)) ∧
    (∀ p, room.players.length < 2 →
      room.players.find? (fun q => q.socketId = socketId) = some p →
      joinRoom hashFn roomId passKey socketId s = (.ok p.role true, s)) ∧
    (∀ e s₂, joinRoom hashFn roomId passKey socketId s = (.err e, s₂) →
      e = .ROOM_FULL → room.players.length ≥ 2) := by
  have hk : ¬ (hashFn passKey ≠ room.passKeyHash) := by simp [hkey]
  refine ⟨?_, ?_, ?_⟩
  · intro hfull
    unfold joinRoom
    rw [hroom]
    dsimp only
    rw [if_neg hk, if_pos hfull]
  · intro p hlt hfind
    unfold joinRoom
    rw [hroom]
    dsimp only
    rw [if_neg hk, if_neg (by omega : ¬ room.players.length ≥ 2), hfind]
  · intro e s₂ h _
    by_cases hfull : room.players.length ≥ 2
    · exact hfull
    · exfalso
      unfold joinRoom at h
      rw [hroom] at h
      dsimp only at h
      rw [if_neg hk, if_neg hfull] at h
      cases hfind : room.players.find? (fun q => q.socketId = socketId) with
      | some p => rw [hfind] at h; simp at h
      | none => rw [hfind] at h; simp at h

/-- C2 (witness): the amended statement applied to the two concrete
stores: the full room rejects its own member "sockA" with `ROOM_FULL`, and
the one-member room returns "sockA"'s existing role X idempotently. -/
theorem joinRoom_rejoin_spec_witness :
    joinRoom id "FULLAA" "key4" "sockA" fullStore =
      (.err .ROOM_FULL, fullStore) ∧
    joinRoom id "SOLOAA" "key4" "sockA" soloStore =
      (.ok Player.X true, soloStore) :=
  ⟨(joinRoom_rejoin_spec id "FULLAA" "key4" "sockA" fullStore fullRoom
      rfl rfl).1 (by decide),
   (joinRoom_rejoin_spec id "SOLOAA" "key4" "sockA" soloStore soloRoom
      rfl rfl).2.1 ⟨"sockA", .X⟩ (by decide) (by decide)⟩

/-! ## Claim C6: no mutation on failure -/

/-- C6: whenever `joinRoom`, `applyMoveToRoom` or `registerReplayVote`
returns an error, the store it returns is exactly the store it was given
(so every field of every room is untouched); in particular a join with the
wrong secret on an existing room returns `WRONG_PASSKEY` and leaves the
store unchanged. -/
theorem errors_preserve_store (hashFn : String → String)
    (roomId passKey socketId : String) (index : Int) (s : Store) :
    (∀ e s₂, joinRoom hashFn roomId passKey socketId s = (.err e, s₂) →
      s₂ = s) ∧
    (∀ e s₂, applyMoveToRoom roomId socketId index s = (.err e, s₂) →
      s₂ = s) ∧
    (∀ e s₂, registerReplayVote roomId socketId s = (.err e, s₂) →
      s₂ = s) ∧
    (∀ room, s roomId = some room → hashFn passKey ≠ room.passKeyHash →
      joinRoom hashFn roomId passKey socketId s =
        (.err .WRONG_PASSKEY, s)) := by
  refine ⟨?_, ?_, ?_, ?_⟩
  · intro e s₂ h
    unfold joinRoom at h
    cases hroom : s roomId with
    | none => rw [hroom] at h; dsimp only at h; exact (Prod.mk.injEq .. ▸ h).2.symm
    | some room =>
      rw [hroom] at h; dsimp only at h
      by_cases hk : hashFn passKey ≠ room.passKeyHash
      · rw [if_pos hk] at h; exact (Prod.mk.injEq .. ▸ h).2.symm
      · rw [if_neg hk] at h
        by_cases hfull : room.players.length ≥ 2
        · rw [if_pos hfull] at h; exact (Prod.mk.injEq .. ▸ h).2.symm
        · rw [if_neg hfull] at h
          cases hfind :
              room.players.find? (fun p => p.socketId = socketId) with
          | some p => rw [hfind] at h; simp at h
          | none => rw [hfind] at h; simp at h
  · intro e s₂ h
    unfold applyMoveToRoom at h
    cases hroom : s roomId with
    | none => rw [hroom] at h; dsimp only at h; exact (Prod.mk.injEq .. ▸ h).2.symm
    | some room =>
      rw [hroom] at h; dsimp only at h
      cases hrole : getPlayerRole roomId socketId s with
      | none => rw [hrole] at h; exact (Prod.mk.injEq .. ▸ h).2.symm
      | some playerRole =>
        rw [hrole] at h
        dsimp only at h
        cases hval : validateMove room playerRole index with
        | some err => rw [hval] at h; exact (Prod.mk.injEq .. ▸ h).2.symm
        | none => rw [hval] at h; simp at h
  · intro e s₂ h
    unfold registerReplayVote at h
    cases hroom : s roomId with
    | none => rw [hroom] at h; dsimp only at h; exact (Prod.mk.injEq .. ▸ h).2.symm
    | some room =>
      rw [hroom] at h; dsimp only at h
      by_cases hstat : room.status ≠ Status.ended
      · rw [if_pos hstat] at h; exact (Prod.mk.injEq .. ▸ h).2.symm
      · rw [if_neg hstat] at h
        by_cases hvoted : room.replayVotes.contains socketId
        · rw [if_pos hvoted] at h; exact (Prod.mk.injEq .. ▸ h).2.symm
        · rw [if_neg hvoted] at h; simp at h
  · intro room hroom hk
    unfold joinRoom
    rw [hroom]
    dsimp only
    rw [if_pos hk]

/-- C6 (witness): concrete instances of all four conjuncts — a join and a
vote on a missing room, a move by a non-member, and a join with the wrong
secret, each leaving the store as it was. -/
theorem errors_preserve_store_witness :
    ((joinRoom id "NOROOM" "key4" "sockA" Store.empty).2 = Store.empty) ∧
    ((applyMoveToRoom "FULLAA" "sockZ" 0 fullStore).2 = fullStore) ∧
    ((registerReplayVote "NOROOM" "sockA" Store.empty).2 = Store.empty) ∧
    joinRoom id "FULLAA" "wrong" "sockA" fullStore =
      (.err .WRONG_PASSKEY, fullStore) :=
  ⟨(errors_preserve_store id "NOROOM" "key4" "sockA" 0 Store.empty).1
      .ROOM_NOT_FOUND (joinRoom id "NOROOM" "key4" "sockA" Store.empty).2
      rfl,
   (errors_preserve_store id "FULLAA" "key4" "sockZ" 0 fullStore).2.1
      .NOT_IN_ROOM (applyMoveToRoom "FULLAA" "sockZ" 0 fullStore).2
      rfl,
   (errors_preserve_store id "NOROOM" "key4" "sockA" 0 Store.empty).2.2.1
      .ROOM_NOT_FOUND (registerReplayVote "NOROOM" "sockA" Store.empty).2
      rfl,
   (errors_preserve_store id "FULLAA" "wrong" "sockA" 0 fullStore).2.2.2
      fullRoom rfl (by decide)⟩

/-! ## Claim C3: replay-vote bounds -/

/-- A sequence of `registerReplayVote` calls on one room, keeping only the
store (the socket handler discards nothing else between calls). -/
def voteSeq (roomId : String) (socketIds : List String) (s : Store) :
    Store :=
  socketIds.foldl (fun st sid => (registerReplayVote roomId sid st).2) s

/-- C3 (counterexample): `registerReplayVote` never checks membership, so
three distinct connection identifiers voting on the ended room "GAMEAA"
drive `replayVotes` to size 3, beyond the claimed bound of 2. -/
theorem replayVotes_exceed_two :
    ((voteSeq "GAMEAA" ["va", "vb", "vc"] endedStore) "GAMEAA").map
        (fun room => room.replayVotes.length) = some 3 := by
  decide

/-- The invariant the amended claim maintains: every copy of the room in
the store has duplicate-free votes drawn from the two identifiers `a` and
`b`. -/
def VotesFrom (roomId a b : String) (s : Store) : Prop :=
  ∀ room, s roomId = some room →
    room.replayVotes.Nodup ∧ ∀ v ∈ room.replayVotes, v = a ∨ v = b

/-- One `registerReplayVote` call by `a` or `b` preserves `VotesFrom`. -/
theorem registerReplayVote_preserves_votesFrom
    (roomId a b sid : String) (s : Store)
    (hsid : sid = a ∨ sid = b) (hinv : VotesFrom roomId a b s) :
    VotesFrom roomId a b (registerReplayVote roomId sid s).2 := by
  intro room' hroom'
  unfold registerReplayVote at hroom'
  cases hroom : s roomId with
  | none => rw [hroom] at hroom'; exact hinv room' hroom'
  | some room =>
    rw [hroom] at hroom'
    dsimp only at hroom'
    by_cases hstat : room.status ≠ Status.ended
    · rw [if_pos hstat] at hroom'; exact hinv room' hroom'
    · rw [if_neg hstat] at hroom'
      by_cases hvoted : room.replayVotes.contains sid
      · rw [if_pos hvoted] at hroom'; exact hinv room' hroom'
      · rw [if_neg hvoted] at hroom'
        have : ({ room with
            replayVotes := room.replayVotes ++ [sid] } : Room) = room' := by
          have := hroom'
          simpa [Store.set] using this
        obtain ⟨hnd, hmem⟩ := hinv room hroom
        rw [← this]
        refine ⟨?_, ?_⟩
        · refine List.Nodup.append hnd (List.nodup_singleton sid) ?_
          intro x hx hxs
          rw [List.mem_singleton] at hxs
          subst hxs
          exact hvoted (by simpa using hx)
        · intro v hv
          rcases List.mem_append.mp hv with h | h
          · exact hmem v h
          · rw [List.mem_singleton] at h; subst h; exact hsid

/-- Folding vote calls drawn from `a` and `b` preserves `VotesFrom`. -/
theorem voteSeq_preserves_votesFrom (roomId a b : String) :
    ∀ (socketIds : List String) (s : Store),
      (∀ x ∈ socketIds, x = a ∨ x = b) → VotesFrom roomId a b s →
      VotesFrom roomId a b (voteSeq roomId socketIds s)
  | [], _, _, hinv => hinv
  | sid :: rest, s, hcallers, hinv =>
    voteSeq_preserves_votesFrom roomId a b rest
      ((registerReplayVote roomId sid s).2)
      (fun x hx => hcallers x (List.mem_cons_of_mem sid hx))
      (registerReplayVote_preserves_votesFrom roomId a b sid s
        (hcallers sid (List.mem_cons_self sid rest)) hinv)

/-- A duplicate-free list over two values has at most two elements. -/
theorem nodup_two_values_length_le (l : List String) (a b : String)
    (hnd : l.Nodup) (hab : ∀ v ∈ l, v = a ∨ v = b) : l.length ≤ 2 := by
  have hsub : l ⊆ [a, b] := by
    intro x hx
    rcases hab x hx with h | h <;> subst h <;> simp
  simpa using (List.subperm_of_subset hnd hsub).length_le

/-- C3 (amended): a repeat vote fails with `ALREADY_VOTED` and leaves the
store unchanged, and under any sequence of `registerReplayVote` calls
drawn from at most two distinct connection identifiers (as when only the
room's two members vote) the room's replay-vote set never exceeds size 2.
Unrestricted callers can exceed 2, as the counterexample shows. -/
theorem registerReplayVote_bounds (roomId a b : String)
    (socketIds : List String) (s : Store)
    (hcallers : ∀ x ∈ socketIds, x = a ∨ x = b)
    (hinv : VotesFrom roomId a b s) :
    (∀ room', (voteSeq roomId socketIds s) roomId = some room' →
      room'.replayVotes.length ≤ 2) ∧
    (∀ sid room, s roomId = some room → room.status = Status.ended →
      room.replayVotes.contains sid →
      registerReplayVote roomId sid s = (.err .ALREADY_VOTED, s)) := by
  constructor
  · have hfold := voteSeq_preserves_votesFrom roomId a b socketIds s
      hcallers hinv
    intro room' hroom'
    obtain ⟨hnd, hmem⟩ := hfold room' hroom'
    exact nodup_two_values_length_le _ a b hnd hmem
  · intro sid room hroom hstat hvoted
    unfold registerReplayVote
    rw [hroom]
    dsimp only
    rw [if_neg (by simp [hstat]), if_pos hvoted]

/-- The ended room "GAMEAA" with member "sockA" having already voted. -/
def votedRoom : Room := { endedRoom with replayVotes := ["sockA"] }

/-- The store holding exactly `votedRoom` under "GAMEAA". -/
def votedStore : Store := Store.empty.set "GAMEAA" votedRoom

/-- C3 (witness): the two members "sockA" and "sockB" voting (with "sockA"
repeating) never push the vote set of "GAMEAA" past 2, and "sockA"'s
repeat vote on `votedStore` fails with `ALREADY_VOTED` leaving the store
unchanged. -/
theorem registerReplayVote_bounds_witness :
    (∀ room', (voteSeq "GAMEAA" ["sockA", "sockB", "sockA"] endedStore)
        "GAMEAA" = some room' → room'.replayVotes.length ≤ 2) ∧
    registerReplayVote "GAMEAA" "sockA" votedStore =
      (.err .ALREADY_VOTED, votedStore) :=
  ⟨(registerReplayVote_bounds "GAMEAA" "sockA" "sockB"
      ["sockA", "sockB", "sockA"] endedStore (by decide)
      (fun room h => by
        have he : endedRoom = room := by
          simpa [endedStore, Store.set, Store.empty] using h
        rw [← he]
        exact ⟨by decide, by decide⟩)).1,
   (registerReplayVote_bounds "GAMEAA" "sockA" "sockB" [] votedStore
      (by decide)
      (fun room h => by
        have he : votedRoom = room := by
          simpa [votedStore, Store.set, Store.empty] using h
        rw [← he]
        exact ⟨by decide, by decide⟩)).2
      "sockA" votedRoom rfl rfl (by decide)⟩

/-! ## Claim C5: the effect of a successful move -/

/-- The in-place flip `room.turn === 'X' ? 'O' : 'X'` of `applyMove`
coincides with `getOppositeRole`. -/
theorem flip_eq_opposite (r : Player) :
    (if r = Player.X then Player.O else Player.X) = getOppositeRole r := by
  cases r <;> rfl

/-- A role never equals its opposite. -/
theorem ne_oppositeRole (r : Player) : r ≠ getOppositeRole r := by
  cases r <;> decide

/-- Function `applyMove` always writes the mover's mark at the index (and changes
nothing else of the board representation). -/
theorem applyMove_board (room : Room) (index : Int) :
    (applyMove room index).1.board =
      room.board.set index.toNat (some room.turn) := by
  simp only [applyMove]
  split
  · rfl
  · split <;> rfl

/-- Function `applyMove` flips the turn exactly when it reports no outcome. -/
theorem applyMove_turn_iff (room : Room) (index : Int) :
    ((applyMove room index).1.turn = getOppositeRole room.turn ↔
      (applyMove room index).2 = none) := by
  simp only [applyMove]
  split
  · simpa using ne_oppositeRole room.turn
  · split
    · simpa using ne_oppositeRole room.turn
    · simp [flip_eq_opposite]

/-- C5: whenever `applyMoveToRoom` succeeds, the moved-on cell was EMPTY
and now holds the role of the connection that moved (which is the room's
turn), every other cell is unchanged, and the returned turn is the
opposite role if and only if no outcome (winner or draw) was
reported. -/
theorem applyMoveToRoom_success_spec (roomId socketId : String)
    (index : Int) (s : Store) (room : Room) (b : Board) (t : Player)
    (outcome : Option Outcome) (s₂ : Store)
    (hroom : s roomId = some room)
    (h : applyMoveToRoom roomId socketId index s = (.ok b t outcome, s₂)) :
    getPlayerRole roomId socketId s = some room.turn ∧
    room.board.getD index.toNat none = none ∧
    b.getD index.toNat none = some room.turn ∧
    (∀ j, j ≠ index.toNat → b.getD j none = room.board.getD j none) ∧
    (t = getOppositeRole room.turn ↔ outcome = none) := by
  unfold applyMoveToRoom at h
  rw [hroom] at h
  dsimp only at h
  cases hrole : getPlayerRole roomId socketId s with
  | none => rw [hrole] at h; simp at h
  | some playerRole =>
    rw [hrole] at h
    dsimp only at h
    cases hval : validateMove room playerRole index with
    | some e => rw [hval] at h; simp at h
    | none =>
      rw [hval] at h
      have hres := (Prod.mk.injEq .. ▸ h).1
      injection hres with hb ht ho
      unfold validateMove at hval
      split at hval
      · simp at hval
      · split at hval
        · simp at hval
        · split at hval
          · simp at hval
          · split at hval
            · simp at hval
            · rename_i hstat hturn hrange hcell
              rw [not_not] at hcell
              have hlt : index.toNat < room.board.length :=
                (List.getElem?_eq_some_iff.mp hcell).1
              have hturn' : room.turn = playerRole := not_ne_iff.mp hturn
              refine ⟨?_, ?_, ?_, ?_, ?_⟩
              · rw [hturn']
              · rw [List.getD_eq_getElem?_getD, hcell]; rfl
              · rw [← hb, applyMove_board,
                  List.getD_eq_getElem?_getD,
                  List.getElem?_set_self hlt]
                rfl
              · intro j hj
                rw [← hb, applyMove_board,
                  List.getD_eq_getElem?_getD,
                  List.getElem?_set_ne (by omega),
                  ← List.getD_eq_getElem?_getD]
              · rw [← ht, ← ho]
                exact applyMove_turn_iff room index

/-- A playing two-member room with an empty board, turn X. -/
def playingRoom : Room :=
  { fullRoom with roomId := "PLAYAA" }

/-- The store holding exactly `playingRoom` under "PLAYAA". -/
def playingStore : Store := Store.empty.set "PLAYAA" playingRoom

/-- C5 (witness): "sockA" (role X, the turn holder) successfully plays
cell 4 of `playingRoom`; instantiating the theorem at that call. -/
theorem applyMoveToRoom_success_spec_witness :
    getPlayerRole "PLAYAA" "sockA" playingStore = some playingRoom.turn ∧
    playingRoom.board.getD (Int.toNat 4) none = none ∧
    (applyMove playingRoom 4).1.board.getD (Int.toNat 4) none =
      some playingRoom.turn ∧
    (∀ j, j ≠ Int.toNat 4 →
      (applyMove playingRoom 4).1.board.getD j none =
        playingRoom.board.getD j none) ∧
    ((applyMove playingRoom 4).1.turn = getOppositeRole playingRoom.turn ↔
      (applyMove playingRoom 4).2 = none) :=
  applyMoveToRoom_success_spec "PLAYAA" "sockA" 4 playingStore playingRoom
    (applyMove playingRoom 4).1.board (applyMove playingRoom 4).1.turn
    (applyMove playingRoom 4).2
    (playingStore.set "PLAYAA" (applyMove playingRoom 4).1) rfl rfl

/-! ## Claim C7: member departure and the no-empty-room invariant -/

/-- Every room held in the store has at least one member. -/
def NoEmptyRooms (s : Store) : Prop :=
  ∀ id r, s id = some r → r.players ≠ []

/-- Updating the store with a non-empty-membered room preserves the invariant. -/
theorem noEmptyRooms_set (s : Store) (roomId : String) (room : Room)
    (hs : NoEmptyRooms s) (hroom : room.players ≠ []) :
    NoEmptyRooms (s.set roomId room) := by
  intro id r hr
  unfold Store.set at hr
  by_cases hid : id = roomId
  · rw [if_pos hid] at hr
    cases hr
    exact hroom
  · rw [if_neg hid] at hr
    exact hs id r hr

/-- Deleting a room from the store preserves the invariant. -/
theorem noEmptyRooms_del (s : Store) (roomId : String)
    (hs : NoEmptyRooms s) : NoEmptyRooms (s.del roomId) := by
  intro id r hr
  unfold Store.del at hr
  by_cases hid : id = roomId
  · rw [if_pos hid] at hr; cases hr
  · rw [if_neg hid] at hr
    exact hs id r hr

/-- C7: removing the departing member of a 2-member room leaves a
1-member room in WAITING with an all-EMPTY board; removing the last
member of a 1-member room deletes the room from the store; and all
coordinator operations preserve the invariant that no stored room has
zero members. -/
theorem removePlayer_spec (hashFn : String → String)
    (genId roomId passKey socketId : String) (index : Int) (s : Store) :
    (∀ room, s roomId = some room →
      room.players.any (fun p => p.socketId = socketId) = true →
      ((room.players.length = 2 →
        ∃ room', removePlayer roomId socketId s =
            (⟨true, true, 1⟩, s.set roomId room') ∧
          room'.players.length = 1 ∧
          room'.status = Status.waiting ∧
          room'.board = List.replicate 9 none ∧
          room'.turn = Player.X ∧
          room'.replayVotes = []) ∧
       (room.players.length = 1 →
        removePlayer roomId socketId s = (⟨false, true, 0⟩, s.del roomId) ∧
          (s.del roomId) roomId = none))) ∧
    (NoEmptyRooms s →
      NoEmptyRooms (removePlayer roomId socketId s).2 ∧
      NoEmptyRooms (joinRoom hashFn roomId passKey socketId s).2 ∧
      NoEmptyRooms (applyMoveToRoom roomId socketId index s).2 ∧
      NoEmptyRooms (registerReplayVote roomId socketId s).2 ∧
      NoEmptyRooms (resetRoom roomId s).2 ∧
      (∀ rid s', createRoom hashFn genId passKey socketId s = .ok (rid, s') →
        NoEmptyRooms s')) := by
  constructor
  · intro room hroom hmem
    have hnotall : ¬ room.players.all (fun p => p.socketId ≠ socketId) = true := by
      simp only [List.any_eq_true] at hmem
      obtain ⟨p, hp, hps⟩ := hmem
      simp only [List.all_eq_true]
      intro hall
      have := hall p hp
      simp only [decide_eq_true_eq] at hps this
      exact this hps
    have hlen := @List.length_eraseP _
      (fun p => decide (p.socketId = socketId)) room.players
    have hany : room.players.any (fun p => p.socketId = socketId) = true :=
      hmem
    rw [if_pos hany] at hlen
    constructor
    · intro h2
      refine ⟨{ room with
          players := room.players.eraseP (fun p => p.socketId = socketId)
          status := .waiting
          board := List.replicate 9 none
          turn := .X
          replayVotes := [] }, ?_, ?_, rfl, rfl, rfl, rfl⟩
      · unfold removePlayer
        rw [hroom]
        dsimp only
        rw [if_neg hnotall, if_neg (by rw [hlen, h2]; decide)]
        rw [hlen, h2]
      · dsimp only
        rw [hlen, h2]
    · intro h1
      have hzero :
          (room.players.eraseP (fun p => p.socketId = socketId)).length
            = 0 := by
        rw [hlen, h1]
      constructor
      · unfold removePlayer
        rw [hroom]
        dsimp only
        rw [if_neg hnotall, if_pos hzero]
      · unfold Store.del
        rw [if_pos rfl]
  · intro hs
    refine ⟨?_, ?_, ?_, ?_, ?_, ?_⟩
    · unfold removePlayer
      cases hroom : s roomId with
      | none => exact hs
      | some room =>
        dsimp only
        by_cases hnone : room.players.all (fun p => p.socketId ≠ socketId) = true
        · rw [if_pos hnone]; exact hs
        · rw [if_neg hnone]
          by_cases hzero :
              (room.players.eraseP (fun p => p.socketId = socketId)).length = 0
          · rw [if_pos hzero]
            exact noEmptyRooms_del s roomId hs
          · rw [if_neg hzero]
            refine noEmptyRooms_set s roomId _ hs ?_
            intro hnil
            dsimp only at hnil
            rw [hnil] at hzero
            exact hzero rfl
    · unfold joinRoom
      cases hroom : s roomId with
      | none => exact hs
      | some room =>
        dsimp only
        by_cases hk : hashFn passKey ≠ room.passKeyHash
        · rw [if_pos hk]; exact hs
        · rw [if_neg hk]
          by_cases hfull : room.players.length ≥ 2
          · rw [if_pos hfull]; exact hs
          · rw [if_neg hfull]
            cases hfind :
                room.players.find? (fun p => p.socketId = socketId) with
            | some p => exact hs
            | none =>
              refine noEmptyRooms_set s roomId _ hs ?_
              dsimp only
              intro hnil
              exact List.append_ne_nil_of_right_ne_nil room.players
                (by simp) hnil
    · unfold applyMoveToRoom
      cases hroom : s roomId with
      | none => exact hs
      | some room =>
        dsimp only
        cases hrole : getPlayerRole roomId socketId s with
        | none => exact hs
        | some playerRole =>
          dsimp only
          cases hval : validateMove room playerRole index with
          | some e => exact hs
          | none =>
            refine noEmptyRooms_set s roomId _ hs ?_
            have hpl : (applyMove room index).1.players = room.players := by
              simp only [applyMove]
              split
              · rfl
              · split <;> rfl
            rw [hpl]
            intro hnil
            have hfind := hrole
            unfold getPlayerRole at hfind
            rw [hroom] at hfind
            dsimp only at hfind
            cases hf : room.players.find? (fun p => p.socketId = socketId) with
            | none => rw [hf] at hfind; simp at hfind
            | some p =>
              have := List.mem_of_find?_eq_some hf
              rw [hnil] at this
              simp at this
    · unfold registerReplayVote
      cases hroom : s roomId with
      | none => exact hs
      | some room =>
        dsimp only
        by_cases hstat : room.status ≠ Status.ended
        · rw [if_pos hstat]; exact hs
        · rw [if_neg hstat]
          by_cases hvoted : room.replayVotes.contains socketId
          · rw [if_pos hvoted]; exact hs
          · rw [if_neg hvoted]
            exact noEmptyRooms_set s roomId _ hs (hs roomId room hroom)
    · unfold resetRoom
      cases hroom : s roomId with
      | none => exact hs
      | some room =>
        dsimp only
        exact noEmptyRooms_set s roomId _ hs (hs roomId room hroom)
    · intro rid s' hok
      unfold createRoom at hok
      by_cases hcol : (s genId).isSome
      · rw [if_pos hcol] at hok; cases hok
      · rw [if_neg hcol] at hok
        dsimp only at hok
        injection hok with hpair
        have hs' : s' = s.set genId
            { roomId := genId
              passKeyHash := hashFn passKey
              players := [{ socketId := socketId, role := .X }]
              board := List.replicate 9 none
              turn := .X
              status := .waiting
              replayVotes := []
              startingTurn := .X } := (Prod.mk.injEq .. ▸ hpair).2.symm
        rw [hs']
        exact noEmptyRooms_set s genId _ hs (by simp)

/-- C7 (witness): in the concrete two-member store, "sockB" leaving
"FULLAA" yields the 1-member waiting room with a cleared board, and in the
one-member store "sockA" leaving "SOLOAA" deletes the room; the invariant
conjunct instantiated at the empty store. -/
theorem removePlayer_spec_witness :
    (∃ room', removePlayer "FULLAA" "sockB" fullStore =
        (⟨true, true, 1⟩, fullStore.set "FULLAA" room') ∧
      room'.players.length = 1 ∧
      room'.status = Status.waiting ∧
      room'.board = List.replicate 9 none ∧
      room'.turn = Player.X ∧
      room'.replayVotes = []) ∧
    (removePlayer "SOLOAA" "sockA" soloStore =
        (⟨false, true, 0⟩, soloStore.del "SOLOAA") ∧
      (soloStore.del "SOLOAA") "SOLOAA" = none) ∧
    NoEmptyRooms (removePlayer "NOROOM" "sockA" Store.empty).2 :=
  ⟨((removePlayer_spec id "AAAAAA" "FULLAA" "pass" "sockB" 0 fullStore).1
      fullRoom rfl (by decide)).1 (by decide),
   ((removePlayer_spec id "AAAAAA" "SOLOAA" "pass" "sockA" 0 soloStore).1
      soloRoom rfl (by decide)).2 (by decide),
   ((removePlayer_spec id "AAAAAA" "NOROOM" "pass" "sockA" 0
      Store.empty).2 (fun id r hr => by cases hr)).1⟩

/-! ## Claim C8: scan-order invariance of `checkWinner` -/

/-- Rooms whose board is reachable by alternating legal moves: start from
any playing room with an all-EMPTY board (replays may hand the first move
to either role, so the starting turn is arbitrary), and repeatedly let
the role whose turn it is make a `validateMove`-legal move through
`applyMove`. -/
inductive Reachable : Room → Prop where
  | init : ∀ room : Room, room.board = List.replicate 9 none →
      room.status = Status.playing → Reachable room
  | step : ∀ (room : Room) (index : Int), Reachable room →
      validateMove room room.turn index = none →
      Reachable (applyMove room index).1

/-- All winning lines of a board carry the same mark. -/
def WinnersAgree (b : Board) : Prop :=
  ∀ l₁ ∈ WINNING_LINES, ∀ l₂ ∈ WINNING_LINES,
    winLine b l₁ = true → winLine b l₂ = true →
    b.getD l₁.1 none = b.getD l₂.1 none

/-- The facts a passed validation certifies. -/
theorem validateMove_none_facts (room : Room) (playerRole : Player)
    (index : Int) (h : validateMove room playerRole index = none) :
    room.status = Status.playing ∧ room.turn = playerRole ∧
    room.board[index.toNat]? = some none := by
  unfold validateMove at h
  split at h
  · simp at h
  · split at h
    · simp at h
    · split at h
      · simp at h
      · split at h
        · simp at h
        · rename_i h1 h2 _ h4
          exact ⟨not_ne_iff.mp h1, (not_ne_iff.mp h2).symm ▸ rfl,
            not_ne_iff.mp h4⟩

/-- A board without a winner has no winning line. -/
theorem checkWinner_none_no_winLine (b : Board)
    (h : checkWinner b = none) :
    ∀ l ∈ WINNING_LINES, winLine b l = false := by
  unfold checkWinner checkWinnerOn at h
  cases hfind : WINNING_LINES.find? (winLine b) with
  | none =>
    intro l hl
    have := List.find?_eq_none.mp hfind l hl
    simpa using this
  | some l =>
    rw [hfind] at h
    dsimp only at h
    have hwin := List.find?_some hfind
    simp only [winLine, Bool.and_eq_true, Option.isSome_iff_exists] at hwin
    obtain ⟨⟨⟨q, hq⟩, _⟩, _⟩ := hwin
    rw [h] at hq
    cases hq

/-- After a move on a winnerless board, every winning line of the new
board passes through the moved-on cell, so its mark is the mover's. -/
theorem winLine_after_move (b : Board) (idx : Nat) (t : Player)
    (hnw : checkWinner b = none) :
    ∀ l ∈ WINNING_LINES, winLine (b.set idx (some t)) l = true →
      (b.set idx (some t)).getD l.1 none = some t := by
  intro l hl hwin
  by_cases hlen : idx < b.length
  · have hsame : (b.set idx (some t)).getD idx none = some t := by
      rw [List.getD_eq_getElem?_getD, List.getElem?_set_self hlen]
      rfl
    have hother : ∀ j, j ≠ idx →
        (b.set idx (some t)).getD j none = b.getD j none := by
      intro j hj
      rw [List.getD_eq_getElem?_getD,
        List.getElem?_set_ne (fun he => hj he.symm),
        ← List.getD_eq_getElem?_getD]
    simp only [winLine, Bool.and_eq_true, beq_iff_eq] at hwin
    obtain ⟨⟨hsome, heq₁⟩, heq₂⟩ := hwin
    by_cases h1 : l.1 = idx
    · rw [h1]; exact hsame
    · by_cases h2 : l.2.1 = idx
      · rw [heq₁, h2]; exact hsame
      · by_cases h3 : l.2.2 = idx
        · rw [heq₂, h3]; exact hsame
        · exfalso
          have hw : winLine b l = true := by
            simp only [winLine, Bool.and_eq_true, beq_iff_eq]
            rw [← hother l.1 h1, ← hother l.2.1 h2, ← hother l.2.2 h3]
            exact ⟨⟨hsome, heq₁⟩, heq₂⟩
          rw [checkWinner_none_no_winLine b hnw l hl] at hw
          cases hw
  · exfalso
    rw [List.set_eq_of_length_le (by omega)] at hwin
    rw [checkWinner_none_no_winLine b hnw l hl] at hwin
    cases hwin

/-- If `applyMove` leaves the room playing, the new board has no
winner. -/
theorem applyMove_playing_no_winner (room : Room) (index : Int)
    (h : (applyMove room index).1.status = Status.playing) :
    checkWinner (applyMove room index).1.board = none := by
  simp only [applyMove] at h ⊢
  cases hc :
      checkWinner (room.board.set index.toNat (some room.turn)) with
  | some w =>
    rw [hc] at h
    cases h
  | none =>
    rw [hc] at h
    dsimp only at h ⊢
    by_cases hd : checkDraw (room.board.set index.toNat (some room.turn)) = true
    · rw [if_pos hd] at h
      cases h
    · rw [if_neg hd]
      exact hc

/-- Invariant of reachability: a still-playing room has no winner on its
board, and all winning lines of the board agree on their mark. -/
theorem reachable_invariant (room : Room) (hreach : Reachable room) :
    (room.status = Status.playing → checkWinner room.board = none) ∧
    WinnersAgree room.board := by
  induction hreach with
  | init room hboard hstat =>
    rw [hboard]
    constructor
    · intro
      decide
    · unfold WinnersAgree
      decide
  | step room index hreach hlegal ih =>
    obtain ⟨hstat, _, hcell⟩ :=
      validateMove_none_facts room room.turn index hlegal
    have hnw : checkWinner room.board = none := ih.1 hstat
    have key := winLine_after_move room.board index.toNat room.turn hnw
    constructor
    · exact applyMove_playing_no_winner room index
    · rw [applyMove_board]
      intro l₁ h₁ l₂ h₂ hw₁ hw₂
      rw [key l₁ h₁ hw₁, key l₂ h₂ hw₂]

/-- When all winning lines agree, the scan order is immaterial. -/
theorem checkWinnerOn_perm (b : Board) (lines : List (Nat × Nat × Nat))
    (hperm : lines.Perm WINNING_LINES) (hagree : WinnersAgree b) :
    checkWinnerOn lines b = checkWinnerOn WINNING_LINES b := by
  cases hW : WINNING_LINES.find? (winLine b) with
  | none =>
    have hnone := List.find?_eq_none.mp hW
    have hL : lines.find? (winLine b) = none :=
      List.find?_eq_none.mpr (fun x hx => hnone x (hperm.mem_iff.mp hx))
    unfold checkWinnerOn
    rw [hW, hL]
  | some l₂ =>
    have hl₂win : winLine b l₂ = true := List.find?_some hW
    have hl₂mem : l₂ ∈ WINNING_LINES := List.mem_of_find?_eq_some hW
    have hsome : (lines.find? (winLine b)).isSome := by
      rw [List.find?_isSome]
      exact ⟨l₂, hperm.mem_iff.mpr hl₂mem, hl₂win⟩
    obtain ⟨l₁, hl₁⟩ := Option.isSome_iff_exists.mp hsome
    have hl₁win : winLine b l₁ = true := List.find?_some hl₁
    have hl₁mem : l₁ ∈ WINNING_LINES :=
      hperm.mem_iff.mp (List.mem_of_find?_eq_some hl₁)
    unfold checkWinnerOn
    rw [hW, hl₁]
    exact hagree l₁ hl₁mem l₂ hl₂mem hl₁win hl₂win

/-- C8: on every board reachable by alternating legal moves, scanning the
winning lines in any permuted order yields the same result as the fixed
rows-columns-diagonals order of `checkWinner`. -/
theorem checkWinner_scan_order_invariant (room : Room)
    (lines : List (Nat × Nat × Nat)) (hreach : Reachable room)
    (hperm : lines.Perm WINNING_LINES) :
    checkWinnerOn lines room.board = checkWinner room.board :=
  checkWinnerOn_perm room.board lines hperm
    (reachable_invariant room hreach).2

/-- C8 (witness): the theorem applied to the board obtained by one legal
move (X at cell 4) from the empty playing room, with the 8 lines scanned
in reversed order. -/
theorem checkWinner_scan_order_invariant_witness :
    checkWinnerOn WINNING_LINES.reverse (applyMove playingRoom 4).1.board =
      checkWinner (applyMove playingRoom 4).1.board :=
  checkWinner_scan_order_invariant (applyMove playingRoom 4).1
    WINNING_LINES.reverse
    (Reachable.step playingRoom 4 (Reachable.init playingRoom rfl rfl)
      (by decide))
    (by decide)

end TicTacToe
